import Mathlib

/-!
Verification of the calendar synchronization engine in `SyncCalendars.py`.

Shallow embedding conventions:
* Instants are integers at whole-minute granularity (the script's Outlook
  `Restrict` filter strings are formatted to the minute, so at this
  granularity the query's date formatting is exact), and the ±1 minute
  buffer (`timedelta(minutes=1)`) is the integer `1`.
* Target-calendar appointment items carry the fields the script reads or
  writes (`Subject`, `Start`, `End`, `Location`, `BusyStatus`, `Body`);
  `.replace(tzinfo=None)` is the identity on already-normalized instants.
* Source events carry their stored start/end instants plus oracles for the
  per-event failure modes the script's `try/except` blocks can see:
  reading `.Start`/`.End` raising (malformed event data), the overlap
  query raising, and `new_event.Save()` raising.
* Printed output is modeled as a list of log lines; the unknown text of a
  caught exception is modeled by a fixed message.
-/

/-- An appointment item on the target calendar, with the fields
`SyncCalendars.py` reads (`Start`, `End`, `Subject`) and writes
(`Subject`, `Start`, `End`, `Location`, `BusyStatus`, `Body`). -/
structure AppointmentItem where
  subject : String
  start : Int
  end_ : Int
  location : String
  busyStatus : Int
  body : String
deriving DecidableEq, Repr

/-- A source-calendar event: stored start/end instants (the dates the
backend's `Restrict`/`Sort` operate on) together with oracles for the
failure modes visible to the script: `startReadable`/`endReadable` model
whether reading `.Start`/`.End` in Python raises, `overlapQueryFails`
models the overlap query raising, and `saveFails` models
`new_event.Save()` raising inside `book_busy_time`. -/
structure SrcEvent where
  subject : String
  startRaw : Int
  endRaw : Int
  startReadable : Bool
  endReadable : Bool
  overlapQueryFails : Bool
  saveFails : Bool
deriving DecidableEq, Repr

/-- The ±1 minute buffer: `buffer = timedelta(minutes=1)` in
`event_overlaps`. -/
def buffer : Int := 1

/-- The `Restrict` filter in `event_overlaps` (line 57):
`([Start] < 'end') AND ([End] > 'start')`, for candidate interval
`[s, t]`. -/
def conflictFilter (s t : Int) (c : AppointmentItem) : Bool :=
  decide (c.start < t) && decide (c.end_ > s)

/-- The per-conflict test in the loop of `event_overlaps` (line 66):
`(conflict_start - buffer <= start <= conflict_end + buffer) or
(conflict_start <= start and conflict_end >= end)`. -/
def overlapRule (s t : Int) (c : AppointmentItem) : Bool :=
  (decide (c.start - buffer ≤ s) && decide (s ≤ c.end_ + buffer)) ||
    (decide (c.start ≤ s) && decide (c.end_ ≥ t))

instance : DecidableRel (fun a b : AppointmentItem => a.start ≤ b.start) :=
  fun a b => Int.decLe a.start b.start

/-- `items.Sort("[Start]")` on the target calendar's items. -/
def sortItems (cal : List AppointmentItem) : List AppointmentItem :=
  List.insertionSort (fun a b => a.start ≤ b.start) cal

/-- The first conflicting item `event_overlaps` finds: the target items are
sorted, restricted by `conflictFilter`, and scanned until the loop's test
matches (the loop returns on the first match). -/
def findConflict (cal : List AppointmentItem) (s t : Int) : Option AppointmentItem :=
  ((sortItems cal).filter (conflictFilter s t)).find? (overlapRule s t)

/-- `event_overlaps(target_calendar, start, end)` (lines 50-69): true iff
some restricted conflict satisfies the loop's test. -/
def event_overlaps (cal : List AppointmentItem) (s t : Int) : Bool :=
  (findConflict cal s t).isSome

/-- The `Overlap Found` line printed inside `event_overlaps` for the first
matching conflict (line 67); empty when no conflict matches. -/
def overlapLog (cal : List AppointmentItem) (s t : Int) : List String :=
  match findConflict cal s t with
  | some c =>
      ["Overlap Found: [" ++ c.subject ++ "] (" ++ toString c.start ++ " - "
        ++ toString c.end_ ++ ")"]
  | none => []

/-- Helper: `find?` succeeds whenever some member satisfies the predicate. -/
theorem find_isSome_of_mem {α : Type} {l : List α} {p : α → Bool} {a : α}
    (h : a ∈ l) (hp : p a = true) : (l.find? p).isSome = true := by
  induction l with
  | nil => cases h
  | cons x xs ih =>
      rcases List.mem_cons.mp h with h1 | h1
      · subst h1
        simp [List.find?, hp]
      · cases hx : p x with
        | true => simp [List.find?, hx]
        | false => simpa [List.find?, hx] using ih h1

/-- Helper: a successful `find?` exhibits a member satisfying the
predicate. -/
theorem exists_mem_of_find_isSome {α : Type} {l : List α} {p : α → Bool}
    (h : (l.find? p).isSome = true) : ∃ a, a ∈ l ∧ p a = true := by
  induction l with
  | nil => simp [List.find?] at h
  | cons x xs ih =>
      cases hx : p x with
      | true => exact ⟨x, List.mem_cons_self x xs, hx⟩
      | false =>
          rw [List.find?, hx] at h
          rcases ih h with ⟨a, ha, hpa⟩
          exact ⟨a, List.mem_cons_of_mem x ha, hpa⟩

/-- The detector fires as soon as some target item passes the conflict
query and satisfies the loop's rule. -/
theorem event_overlaps_of_mem {cal : List AppointmentItem} {s t : Int}
    {c : AppointmentItem} (hmem : c ∈ cal) (hfilt : conflictFilter s t c = true)
    (hrule : overlapRule s t c = true) : event_overlaps cal s t = true := by
  have hsort : c ∈ sortItems cal :=
    (List.mem_insertionSort (fun a b : AppointmentItem => a.start ≤ b.start)).mpr hmem
  have hf : c ∈ (sortItems cal).filter (conflictFilter s t) :=
    List.mem_filter.mpr ⟨hsort, hfilt⟩
  exact find_isSome_of_mem hf hrule

/-- C2 (amended): the tolerant start-containment rule guarantees detection
for every existing target item that the conflict query returns, i.e. that
also satisfies `existing.start < candidate.end` and
`existing.end > candidate.start`. -/
theorem tolerant_rule_detected_within_query (cal : List AppointmentItem)
    (c : AppointmentItem) (s t : Int) (hmem : c ∈ cal)
    (hfilt : conflictFilter s t c = true)
    (h1 : c.start - buffer ≤ s) (h2 : s ≤ c.end_ + buffer) :
    event_overlaps cal s t = true := by
  apply event_overlaps_of_mem hmem hfilt
  simp only [overlapRule, Bool.or_eq_true, Bool.and_eq_true, decide_eq_true_eq]
  exact Or.inl ⟨h1, h2⟩

/-- Witness for C2's amended theorem at a concrete input: existing item
`[590, 700]`, candidate `[600, 660]`. -/
theorem tolerant_rule_detected_within_query_witness :
    event_overlaps [⟨"Existing", 590, 700, "", 0, ""⟩] 600 660 = true :=
  tolerant_rule_detected_within_query _ ⟨"Existing", 590, 700, "", 0, ""⟩ 600 660
    (by decide) (by decide) (by decide) (by decide)

/-- C2 counterexample: the existing item `[500, 599]` satisfies the
tolerant start-containment rule for the candidate `[600, 660]`
(`599 + 1 = 600 ≥ 600` and `500 - 1 ≤ 600`, boundaries inclusive), yet the
detector returns false, because the conflict query `[End] > start`
excludes the item before the rule is ever evaluated. -/
theorem tolerant_rule_missed_outside_query :
    (let c : AppointmentItem := ⟨"Existing", 500, 599, "", 0, ""⟩
     (c.start - buffer ≤ 600 ∧ (600 : Int) ≤ c.end_ + buffer) ∧
       event_overlaps [c] 600 660 = false) := by
  decide

/-- C3 (amended): the containment rule guarantees detection for every
existing target item that the conflict query returns; a zero-length
candidate is evaluated by the same rules, but one lying on the containing
item's boundary fails the query's strict comparison and is never
examined. -/
theorem containment_rule_detected_within_query (cal : List AppointmentItem)
    (c : AppointmentItem) (s t : Int) (hmem : c ∈ cal)
    (hfilt : conflictFilter s t c = true)
    (h1 : c.start ≤ s) (h2 : c.end_ ≥ t) :
    event_overlaps cal s t = true := by
  apply event_overlaps_of_mem hmem hfilt
  simp only [overlapRule, Bool.or_eq_true, Bool.and_eq_true, decide_eq_true_eq]
  exact Or.inr ⟨h1, h2⟩

/-- Witness for C3's amended theorem at a concrete input: existing item
`[510, 700]` fully contains the candidate `[600, 660]`, with a start delta
of 90 minutes, far outside the 1-minute tolerance. -/
theorem containment_rule_detected_within_query_witness :
    event_overlaps [⟨"Existing", 510, 700, "", 0, ""⟩] 600 660 = true :=
  containment_rule_detected_within_query _ ⟨"Existing", 510, 700, "", 0, ""⟩ 600 660
    (by decide) (by decide) (by decide) (by decide)

/-- C3 counterexample: the existing item `[500, 600]` fully contains the
zero-length candidate `[600, 600]` (`500 ≤ 600` and `600 ≥ 600`), yet the
detector returns false: the conflict query `[End] > start` is strict, so
the containing item is excluded and the zero-length candidate is never
compared against it. -/
theorem containment_rule_zero_length_missed :
    (let c : AppointmentItem := ⟨"Existing", 500, 600, "", 0, ""⟩
     (c.start ≤ 600 ∧ c.end_ ≥ (600 : Int)) ∧
       event_overlaps [c] 600 600 = false) := by
  decide

/-- C4: soundness of the detector: if no item returned by the conflict
query satisfies the loop's rule (in particular, vacuously, if the query
returns zero items), `event_overlaps` returns false. -/
theorem event_overlaps_sound (cal : List AppointmentItem) (s t : Int)
    (h : ∀ c, c ∈ cal.filter (conflictFilter s t) → overlapRule s t c = false) :
    event_overlaps cal s t = false := by
  unfold event_overlaps findConflict
  cases hf : ((sortItems cal).filter (conflictFilter s t)).find? (overlapRule s t) with
  | none => rfl
  | some c =>
      exfalso
      have hsome : (((sortItems cal).filter (conflictFilter s t)).find?
          (overlapRule s t)).isSome = true := by rw [hf]; rfl
      rcases exists_mem_of_find_isSome hsome with ⟨a, ha, hpa⟩
      have hmem : a ∈ cal.filter (conflictFilter s t) := by
        rcases List.mem_filter.mp ha with ⟨hs, hflt⟩
        exact List.mem_filter.mpr
          ⟨(List.mem_insertionSort (fun a b : AppointmentItem => a.start ≤ b.start)).mp hs, hflt⟩
      rw [h a hmem] at hpa
      cases hpa

/-- Witness for C4 at a concrete input: target item `[100, 200]` is
unrelated to the candidate `[600, 660]`, and an empty target calendar
never overlaps. -/
theorem event_overlaps_sound_witness :
    event_overlaps [⟨"Far", 100, 200, "", 0, ""⟩] 600 660 = false :=
  event_overlaps_sound [⟨"Far", 100, 200, "", 0, ""⟩] 600 660 (by decide)

/-- The per-event outcome of the main loop, the tagged observation of
which branch the loop body took for one source event. -/
inductive Outcome where
  | booked
  | bookFailed
  | skipped
  | errored
deriving DecidableEq, Repr

/-- Result of processing one source event: the target calendar afterwards,
the branch taken, and the lines printed. -/
structure StepResult where
  target : List AppointmentItem
  outcome : Outcome
  log : List String
deriving DecidableEq, Repr

/-- The busy block `book_busy_time` constructs (lines 75-82): subject
`"Busy"`, the source event's start and end, location
`"Reserved by Automation"`, `BusyStatus = 2` (olBusy), and a body
annotation naming the source event's subject. -/
def busyBlock (ev : SrcEvent) : AppointmentItem :=
  { subject := "Busy"
    start := ev.startRaw
    end_ := ev.endRaw
    location := "Reserved by Automation"
    busyStatus := 2
    body := "Blocked due to event: " ++ ev.subject }

/-- `book_busy_time(target_calendar, event)` (lines 72-85): the whole body
sits in a `try`; on success the saved block is appended and the `Booked
Busy Time` line printed; any failure is caught inside the function, the
`Error creating event` line printed, and the function returns normally
with the target unchanged. -/
def book_busy_time (cal : List AppointmentItem) (ev : SrcEvent) : StepResult :=
  if ev.saveFails then
    ⟨cal, Outcome.bookFailed, ["Error creating event: save failed"]⟩
  else
    ⟨cal ++ [busyBlock ev], Outcome.booked,
      ["Booked Busy Time: " ++ toString ev.startRaw ++ " - " ++ toString ev.endRaw]⟩

/-- The `Error processing event` line printed by the main loop's `except`
handler (line 116). -/
def processErrLine (ev : SrcEvent) (msg : String) : String :=
  "Error processing event: " ++ ev.subject ++ ", Error: " ++ msg

/-- One iteration of the main loop (lines 105-116): read the event's
start/end (an unreadable instant raises into the `except` handler), query
the target for overlaps (a query failure raises likewise), then either
report the conflict or call `book_busy_time`. -/
def processOne (cal : List AppointmentItem) (ev : SrcEvent) : StepResult :=
  if ev.startReadable && ev.endReadable then
    if ev.overlapQueryFails then
      ⟨cal, Outcome.errored, [processErrLine ev "overlap query failed"]⟩
    else if event_overlaps cal ev.startRaw ev.endRaw then
      ⟨cal, Outcome.skipped,
        overlapLog cal ev.startRaw ev.endRaw ++
          ["Conflicting event already exists for: " ++ toString ev.startRaw
            ++ " - " ++ toString ev.endRaw]⟩
    else
      book_busy_time cal ev
  else
    ⟨cal, Outcome.errored, [processErrLine ev "unreadable event time"]⟩

/-- Result of the whole `for event in source_events` loop. -/
structure LoopResult where
  target : List AppointmentItem
  outcomes : List Outcome
  log : List String
deriving DecidableEq, Repr

/-- The main loop over the fetched source events (lines 105-116), threading
the target calendar through the per-event steps. -/
def syncRun (cal : List AppointmentItem) : List SrcEvent → LoopResult
  | [] => ⟨cal, [], []⟩
  | ev :: rest =>
      let step := processOne cal ev
      let r := syncRun step.target rest
      ⟨r.target, step.outcome :: r.outcomes, step.log ++ r.log⟩

theorem syncRun_nil (cal : List AppointmentItem) : syncRun cal [] = ⟨cal, [], []⟩ := rfl

theorem syncRun_cons (cal : List AppointmentItem) (ev : SrcEvent) (rest : List SrcEvent) :
    syncRun cal (ev :: rest) =
      ⟨(syncRun (processOne cal ev).target rest).target,
        (processOne cal ev).outcome :: (syncRun (processOne cal ev).target rest).outcomes,
        (processOne cal ev).log ++ (syncRun (processOne cal ev).target rest).log⟩ := rfl

/-- The loop records one outcome per fetched event. -/
theorem syncRun_outcomes_length (src : List SrcEvent) :
    ∀ cal : List AppointmentItem, (syncRun cal src).outcomes.length = src.length := by
  induction src with
  | nil => intro cal; rfl
  | cons ev rest ih =>
      intro cal
      rw [syncRun_cons]
      simp [ih]

/-- The loop over a concatenation is the loop over the first part followed
by the loop over the second, threading the target through. -/
theorem syncRun_append (xs ys : List SrcEvent) :
    ∀ cal : List AppointmentItem,
      syncRun cal (xs ++ ys) =
        ⟨(syncRun (syncRun cal xs).target ys).target,
          (syncRun cal xs).outcomes ++ (syncRun (syncRun cal xs).target ys).outcomes,
          (syncRun cal xs).log ++ (syncRun (syncRun cal xs).target ys).log⟩ := by
  induction xs with
  | nil => intro cal; simp [syncRun_nil]
  | cons ev rest ih =>
      intro cal
      rw [List.cons_append, syncRun_cons, ih, syncRun_cons]
      simp [List.append_assoc]

/-- Per-event failure modes of one loop iteration: malformed start/end,
an overlap-query failure, or a create-busy-block failure. -/
def perEventFailure (ev : SrcEvent) : Bool :=
  !ev.startReadable || !ev.endReadable || ev.overlapQueryFails || ev.saveFails

/-- A failing event never changes the target calendar: every failure path
of the loop body leaves the target as it was. -/
theorem processOne_failure_target (cal : List AppointmentItem) (ev : SrcEvent)
    (h : perEventFailure ev = true) : (processOne cal ev).target = cal := by
  unfold processOne book_busy_time
  by_cases h1 : (ev.startReadable && ev.endReadable) = true
  · simp only [h1, if_true]
    by_cases h2 : ev.overlapQueryFails = true
    · simp [h2]
    · simp only [Bool.not_eq_true] at h2
      simp only [h2, Bool.false_eq_true, if_false]
      by_cases h3 : event_overlaps cal ev.startRaw ev.endRaw = true
      · simp [h3]
      · simp only [Bool.not_eq_true] at h3
        simp only [h3, Bool.false_eq_true, if_false]
        have hsf : ev.saveFails = true := by
          rw [Bool.and_eq_true] at h1
          simpa [perEventFailure, h1.1, h1.2, h2] using h
        simp [hsf]
  · simp [h1]

/-- C5: partial-failure isolation: if event `k` of the fetched sequence
fails (malformed start/end, overlap-query failure, or create-busy-block
failure), the events after it are still each evaluated, from an unchanged
target calendar, and the run records one outcome per event. -/
theorem per_event_failure_isolated (cal : List AppointmentItem)
    (pre : List SrcEvent) (ev : SrcEvent) (post : List SrcEvent)
    (h : perEventFailure ev = true) :
    (syncRun cal (pre ++ ev :: post)).outcomes =
        (syncRun cal pre).outcomes ++
          (processOne (syncRun cal pre).target ev).outcome ::
            (syncRun (syncRun cal pre).target post).outcomes ∧
      (syncRun cal (pre ++ ev :: post)).target =
        (syncRun (syncRun cal pre).target post).target ∧
      (syncRun cal (pre ++ ev :: post)).outcomes.length =
        pre.length + 1 + post.length := by
  have hT := processOne_failure_target (syncRun cal pre).target ev h
  rw [syncRun_append pre (ev :: post) cal, syncRun_cons, hT]
  refine ⟨rfl, rfl, ?_⟩
  simp [syncRun_outcomes_length]
  omega

/-- A source event whose `.Start` cannot be read (malformed event data). -/
def badStartEv : SrcEvent := ⟨"Broken", 600, 660, false, true, false, false⟩

/-- Witness for C5 at a concrete input: a run whose only event has an
unreadable start still records that event's outcome and leaves the target
unchanged. -/
theorem per_event_failure_isolated_witness :
    (syncRun [] ([] ++ badStartEv :: [])).outcomes =
        (syncRun ([] : List AppointmentItem) []).outcomes ++
          (processOne (syncRun ([] : List AppointmentItem) []).target badStartEv).outcome ::
            (syncRun (syncRun ([] : List AppointmentItem) []).target []).outcomes ∧
      (syncRun [] ([] ++ badStartEv :: [])).target =
        (syncRun (syncRun ([] : List AppointmentItem) []).target []).target ∧
      (syncRun [] ([] ++ badStartEv :: [])).outcomes.length = 0 + 1 + 0 :=
  per_event_failure_isolated [] [] badStartEv [] rfl

/-- C8: when an event is decided Book and the save succeeds, the block
created on the target has subject `"Busy"`, the source event's start and
end, the automation location sentinel, busy status `2`, and a body
annotation naming the source event's subject. -/
theorem busy_block_construction (cal : List AppointmentItem) (ev : SrcEvent)
    (h1 : ev.startReadable = true) (h2 : ev.endReadable = true)
    (h3 : ev.overlapQueryFails = false)
    (h4 : event_overlaps cal ev.startRaw ev.endRaw = false)
    (h5 : ev.saveFails = false) :
    processOne cal ev =
      ⟨cal ++ [{ subject := "Busy", start := ev.startRaw, end_ := ev.endRaw,
                 location := "Reserved by Automation", busyStatus := 2,
                 body := "Blocked due to event: " ++ ev.subject }],
        Outcome.booked,
        ["Booked Busy Time: " ++ toString ev.startRaw ++ " - " ++ toString ev.endRaw]⟩ := by
  simp [processOne, book_busy_time, busyBlock, h1, h2, h3, h4, h5]

/-- A healthy one-hour source event. -/
def meetingEv : SrcEvent := ⟨"Team Meeting", 600, 660, true, true, false, false⟩

/-- Witness for C8 at a concrete input: booking `meetingEv` on an empty
target creates exactly the sentinel busy block. -/
theorem busy_block_construction_witness :
    processOne [] meetingEv =
      ⟨[{ subject := "Busy", start := meetingEv.startRaw, end_ := meetingEv.endRaw,
          location := "Reserved by Automation", busyStatus := 2,
          body := "Blocked due to event: " ++ meetingEv.subject }],
        Outcome.booked,
        ["Booked Busy Time: " ++ toString meetingEv.startRaw ++ " - "
          ++ toString meetingEv.endRaw]⟩ :=
  busy_block_construction [] meetingEv rfl rfl rfl rfl rfl

/-- Helper: the last element of a list with one element appended. -/
theorem getLast_append_single {α : Type} (l : List α) (a : α) :
    (l ++ [a]).getLast? = some a := by
  induction l with
  | nil => rfl
  | cons x xs ih =>
      rw [List.cons_append]
      cases hxs : xs ++ [a] with
      | nil => exact absurd hxs (by simp)
      | cons y ys =>
          rw [List.getLast?_cons_cons, ← hxs, ih]

/-- C10: a failure while creating or saving the busy block is caught
inside `book_busy_time`: the function returns normally with the target
unchanged and the error logged, the loop continues with the remaining
events, and the run's final completion message is the same as after a
successful booking. -/
theorem book_failure_swallowed (cal : List AppointmentItem) (ev : SrcEvent)
    (rest : List SrcEvent)
    (h1 : ev.startReadable = true) (h2 : ev.endReadable = true)
    (h3 : ev.overlapQueryFails = false)
    (h4 : event_overlaps cal ev.startRaw ev.endRaw = false)
    (h5 : ev.saveFails = true) :
    processOne cal ev = ⟨cal, Outcome.bookFailed, ["Error creating event: save failed"]⟩ ∧
      (syncRun cal (ev :: rest)).target = (syncRun cal rest).target ∧
      (syncRun cal (ev :: rest)).outcomes =
        Outcome.bookFailed :: (syncRun cal rest).outcomes ∧
      ((syncRun cal (ev :: rest)).log ++ ["Syncing complete."]).getLast? =
        ((syncRun cal ({ ev with saveFails := false } :: rest)).log
          ++ ["Syncing complete."]).getLast? := by
  have hp : processOne cal ev = ⟨cal, Outcome.bookFailed,
      ["Error creating event: save failed"]⟩ := by
    simp [processOne, book_busy_time, h1, h2, h3, h4, h5]
  refine ⟨hp, ?_, ?_, ?_⟩
  · rw [syncRun_cons, hp]
  · rw [syncRun_cons, hp]
  · rw [getLast_append_single, getLast_append_single]

/-- A source event whose busy block cannot be saved. -/
def failSaveEv : SrcEvent := ⟨"Standup", 700, 730, true, true, false, true⟩

/-- Witness for C10 at a concrete input. -/
theorem book_failure_swallowed_witness :
    processOne [] failSaveEv =
        ⟨[], Outcome.bookFailed, ["Error creating event: save failed"]⟩ ∧
      (syncRun [] [failSaveEv]).target = (syncRun ([] : List AppointmentItem) []).target ∧
      (syncRun [] [failSaveEv]).outcomes =
        Outcome.bookFailed :: (syncRun ([] : List AppointmentItem) []).outcomes ∧
      ((syncRun [] [failSaveEv]).log ++ ["Syncing complete."]).getLast? =
        ((syncRun [] [{ failSaveEv with saveFails := false }]).log
          ++ ["Syncing complete."]).getLast? :=
  book_failure_swallowed [] failSaveEv [] rfl rfl rfl rfl rfl

/-- One loop iteration either leaves the target unchanged or appends the
new busy block. -/
theorem processOne_target_cases (cal : List AppointmentItem) (ev : SrcEvent) :
    (processOne cal ev).target = cal ∨
      (processOne cal ev).target = cal ++ [busyBlock ev] := by
  unfold processOne book_busy_time
  split_ifs <;> simp

/-- Items already on the target calendar survive one loop iteration. -/
theorem processOne_target_mem (cal : List AppointmentItem) (ev : SrcEvent)
    (b : AppointmentItem) (hb : b ∈ cal) : b ∈ (processOne cal ev).target := by
  rcases processOne_target_cases cal ev with h | h <;> rw [h]
  · exact hb
  · exact List.mem_append_left _ hb

/-- Items already on the target calendar survive the whole run. -/
theorem mem_syncRun_target (src : List SrcEvent) :
    ∀ (cal : List AppointmentItem) (b : AppointmentItem),
      b ∈ cal → b ∈ (syncRun cal src).target := by
  induction src with
  | nil => intro cal b hb; exact hb
  | cons ev rest ih =>
      intro cal b hb
      rw [syncRun_cons]
      exact ih _ b (processOne_target_mem cal ev b hb)

/-- Overlap detection is monotone in the target calendar: growing the set
of existing items never turns a detected overlap into a miss. -/
theorem event_overlaps_mono {cal cal' : List AppointmentItem} {s t : Int}
    (hsub : ∀ x, x ∈ cal → x ∈ cal')
    (h : event_overlaps cal s t = true) : event_overlaps cal' s t = true := by
  unfold event_overlaps findConflict at h
  rcases exists_mem_of_find_isSome h with ⟨c, hc, hrule⟩
  rcases List.mem_filter.mp hc with ⟨hcs, hflt⟩
  have hmem : c ∈ cal :=
    (List.mem_insertionSort (fun a b : AppointmentItem => a.start ≤ b.start)).mp hcs
  exact event_overlaps_of_mem (hsub c hmem) hflt hrule

theorem processOne_malformed (cal : List AppointmentItem) (ev : SrcEvent)
    (h : (ev.startReadable && ev.endReadable) = false) :
    processOne cal ev = ⟨cal, Outcome.errored,
      [processErrLine ev "unreadable event time"]⟩ := by
  simp [processOne, h]

theorem processOne_queryfail (cal : List AppointmentItem) (ev : SrcEvent)
    (h1 : (ev.startReadable && ev.endReadable) = true)
    (h2 : ev.overlapQueryFails = true) :
    processOne cal ev = ⟨cal, Outcome.errored,
      [processErrLine ev "overlap query failed"]⟩ := by
  simp [processOne, h1, h2]

theorem processOne_skip (cal : List AppointmentItem) (ev : SrcEvent)
    (h1 : (ev.startReadable && ev.endReadable) = true)
    (h2 : ev.overlapQueryFails = false)
    (h3 : event_overlaps cal ev.startRaw ev.endRaw = true) :
    processOne cal ev = ⟨cal, Outcome.skipped,
      overlapLog cal ev.startRaw ev.endRaw ++
        ["Conflicting event already exists for: " ++ toString ev.startRaw
          ++ " - " ++ toString ev.endRaw]⟩ := by
  simp [processOne, h1, h2, h3]

theorem processOne_book_eq (cal : List AppointmentItem) (ev : SrcEvent)
    (h1 : (ev.startReadable && ev.endReadable) = true)
    (h2 : ev.overlapQueryFails = false)
    (h3 : event_overlaps cal ev.startRaw ev.endRaw = false) :
    processOne cal ev = book_busy_time cal ev := by
  simp [processOne, h1, h2, h3]

/-- Core of the idempotence argument: a second pass over the same source
events, run against any target state containing everything the first pass
left behind, books nothing and leaves the target unchanged — provided
every source event has positive length. -/
theorem run_twice_no_book : ∀ (src : List SrcEvent) (cal U : List AppointmentItem),
    (∀ ev ∈ src, ev.startRaw < ev.endRaw) →
    (∀ b ∈ (syncRun cal src).target, b ∈ U) →
    Outcome.booked ∉ (syncRun U src).outcomes ∧ (syncRun U src).target = U := by
  intro src
  induction src with
  | nil => intro cal U _ _; exact ⟨by simp [syncRun_nil], rfl⟩
  | cons ev rest ih =>
      intro cal U hlen hsub
      rw [syncRun_cons] at hsub
      have hTU : ∀ b, b ∈ cal → b ∈ U := fun b hb =>
        hsub b (mem_syncRun_target rest _ b (processOne_target_mem cal ev b hb))
      have hstep2 : (processOne U ev).target = U ∧
          (processOne U ev).outcome ≠ Outcome.booked := by
        by_cases h1 : (ev.startReadable && ev.endReadable) = true
        · by_cases h2 : ev.overlapQueryFails = true
          · rw [processOne_queryfail U ev h1 h2]
            exact ⟨rfl, by simp⟩
          · have h2' : ev.overlapQueryFails = false := by simpa using h2
            by_cases h3 : event_overlaps U ev.startRaw ev.endRaw = true
            · rw [processOne_skip U ev h1 h2' h3]
              exact ⟨rfl, by simp⟩
            · have h3' : event_overlaps U ev.startRaw ev.endRaw = false := by
                simpa using h3
              by_cases hov1 : event_overlaps cal ev.startRaw ev.endRaw = true
              · exact absurd (event_overlaps_mono hTU hov1) h3
              · have hov1' : event_overlaps cal ev.startRaw ev.endRaw = false := by
                  simpa using hov1
                by_cases hsf : ev.saveFails = true
                · rw [processOne_book_eq U ev h1 h2' h3']
                  unfold book_busy_time
                  rw [hsf]
                  exact ⟨rfl, by simp⟩
                · have hsf' : ev.saveFails = false := by simpa using hsf
                  have hb1 : busyBlock ev ∈ (processOne cal ev).target := by
                    rw [processOne_book_eq cal ev h1 h2' hov1']
                    unfold book_busy_time
                    rw [hsf']
                    simp
                  have hbU : busyBlock ev ∈ U :=
                    hsub _ (mem_syncRun_target rest _ _ hb1)
                  have hslt : ev.startRaw < ev.endRaw :=
                    hlen ev (List.mem_cons_self ev rest)
                  have hdet : event_overlaps U ev.startRaw ev.endRaw = true := by
                    apply event_overlaps_of_mem hbU
                    · simp only [conflictFilter, busyBlock, Bool.and_eq_true,
                        decide_eq_true_eq]
                      omega
                    · simp only [overlapRule, busyBlock, buffer, Bool.or_eq_true,
                        Bool.and_eq_true, decide_eq_true_eq]
                      omega
                  exact absurd hdet h3
        · have h1' : (ev.startReadable && ev.endReadable) = false := by simpa using h1
          rw [processOne_malformed U ev h1']
          exact ⟨rfl, by simp⟩
      obtain ⟨ht2, ho2⟩ := hstep2
      have hrest := ih (processOne cal ev).target U
        (fun e he => hlen e (List.mem_cons_of_mem ev he)) hsub
      obtain ⟨hnb, htg⟩ := hrest
      rw [syncRun_cons, ht2]
      constructor
      · intro hmem
        rcases List.mem_cons.mp hmem with h | h
        · exact ho2 h.symm
        · exact hnb h
      · exact htg

/-- C1 (amended): running the synchronization twice against the same
source events, with nothing changing externally between the runs, books
zero new busy blocks on the second run and leaves the target calendar
unchanged — provided every source event has start strictly before end.
(The original claim, which also covered zero-length events, is refuted by
the counterexample below.) -/
theorem run_idempotent_for_positive_length (cal0 : List AppointmentItem)
    (src : List SrcEvent) (h : ∀ ev ∈ src, ev.startRaw < ev.endRaw) :
    Outcome.booked ∉ (syncRun (syncRun cal0 src).target src).outcomes ∧
      (syncRun (syncRun cal0 src).target src).target = (syncRun cal0 src).target :=
  run_twice_no_book src cal0 (syncRun cal0 src).target h (fun _ hb => hb)

/-- Witness for C1's amended theorem at a concrete input: booking a
one-hour event on an empty target, then re-running, books nothing the
second time. -/
theorem run_idempotent_for_positive_length_witness :
    Outcome.booked ∉ (syncRun (syncRun [] [meetingEv]).target [meetingEv]).outcomes ∧
      (syncRun (syncRun [] [meetingEv]).target [meetingEv]).target =
        (syncRun [] [meetingEv]).target :=
  run_idempotent_for_positive_length [] [meetingEv] (by decide)

/-- A zero-length source event (start equals end). -/
def zeroLenEv : SrcEvent := ⟨"ZeroLength", 600, 600, true, true, false, false⟩

/-- C1 counterexample: a zero-length source event booked on run 1 is NOT
detected as overlapping on run 2 — the conflict query
`[Start] < end AND [End] > start` can never return the zero-length block
created by run 1 — so run 2 books it again, growing the target. -/
theorem run_rebooks_zero_length :
    (syncRun (syncRun [] [zeroLenEv]).target [zeroLenEv]).outcomes =
        [Outcome.booked] ∧
      (syncRun (syncRun [] [zeroLenEv]).target [zeroLenEv]).target ≠
        (syncRun [] [zeroLenEv]).target := by
  decide

instance : DecidableRel (fun a b : SrcEvent => a.startRaw ≤ b.startRaw) :=
  fun a b => Int.decLe a.startRaw b.startRaw

/-- `get_events(calendar_folder, start_date, end_date)` (lines 37-47):
sort the items by `[Start]`, then `Restrict` with
`[Start] >= 'start_date' AND [End] <= 'end_date'` — full containment in
the window, not intersection. -/
def get_events (cal : List SrcEvent) (start_date end_date : Int) : List SrcEvent :=
  (List.insertionSort (fun a b => a.startRaw ≤ b.startRaw) cal).filter
    (fun ev => decide (ev.startRaw ≥ start_date) && decide (ev.endRaw ≤ end_date))

/-- C9: the fetch returns exactly the calendar items wholly contained in
the window: `start >= window.start` AND `end <= window.end`. An item that
starts inside the window but ends after its end fails the right conjunct
and is excluded. -/
theorem get_events_full_containment (cal : List SrcEvent) (sd ed : Int)
    (x : SrcEvent) :
    x ∈ get_events cal sd ed ↔ x ∈ cal ∧ sd ≤ x.startRaw ∧ x.endRaw ≤ ed := by
  unfold get_events
  rw [List.mem_filter,
    List.mem_insertionSort (fun a b : SrcEvent => a.startRaw ≤ b.startRaw)]
  simp [ge_iff_le, and_assoc]

/-- An Outlook account folder as `get_calendar` traverses it: the account
name, and the named calendars `account.Folders(name)` can return; a name
missing from the list models `Folders(calendar_name)` raising. -/
structure Folder (α : Type) where
  name : String
  cals : List (String × α)
deriving DecidableEq

/-- `get_calendar(account_name, calendar_name)` (lines 26-34): scan
`namespace.Folders`; on each account whose name matches, try
`account.Folders(calendar_name)` and return it; a raised error is caught,
logged, and the scan continues; return `None` when no account yields the
calendar. -/
def get_calendar {α : Type} : List (Folder α) → String → String → Option α
  | [], _, _ => none
  | f :: rest, account_name, calendar_name =>
      if f.name == account_name then
        match f.cals.lookup calendar_name with
        | some c => some c
        | none => get_calendar rest account_name calendar_name
      else get_calendar rest account_name calendar_name

def SOURCE_ACCOUNT : String := "user@workemail.com"

def TARGET_ACCOUNT : String := "user@personalemail.com"

def CALENDAR_NAME : String := "Calendar"

/-- The world one invocation of the script sees: `namespace.Folders` viewed
as source-event folders and as target-item folders, and the current
instant (`datetime.now()`), from which the 30-day window is computed. -/
structure Env where
  srcFolders : List (Folder (List SrcEvent))
  tgtFolders : List (Folder (List AppointmentItem))
  now : Int
deriving DecidableEq

/-- Everything observable about one invocation of the script: the process
exit status, the events fetched, the target calendar at the end (`none`
when the run aborted before reaching it), the per-event outcomes, and the
printed lines. -/
structure RunResult where
  exitCode : Nat
  fetched : List SrcEvent
  finalTarget : Option (List AppointmentItem)
  outcomes : List Outcome
  log : List String
deriving DecidableEq, Repr

/-- The startup banner (line 89). -/
def headerLine : String :=
  "Syncing events from " ++ SOURCE_ACCOUNT ++ " -> " ++ TARGET_ACCOUNT
    ++ " (" ++ CALENDAR_NAME ++ ")"

/-- The main execution (lines 88-118): resolve both calendars; if either
is missing, print the message and call `exit()` — which in Python raises
`SystemExit(None)` and terminates the process with status 0 — before any
event is fetched; otherwise fetch the source events in the 30-day window,
run the loop, and print `Syncing complete.` (a script that runs to the end
also exits with status 0). -/
def mainRun (env : Env) : RunResult :=
  match get_calendar env.srcFolders SOURCE_ACCOUNT CALENDAR_NAME,
      get_calendar env.tgtFolders TARGET_ACCOUNT CALENDAR_NAME with
  | none, _ =>
      ⟨0, [], none, [],
        [headerLine, "Source calendar not found for " ++ SOURCE_ACCOUNT ++ ". Exiting."]⟩
  | some _, none =>
      ⟨0, [], none, [],
        [headerLine, "Target calendar not found for " ++ TARGET_ACCOUNT ++ ". Exiting."]⟩
  | some sc, some tc =>
      let source_events := get_events sc env.now (env.now + 30 * 24 * 60)
      let r := syncRun tc source_events
      ⟨0, source_events, some r.target, r.outcomes,
        headerLine :: (r.log ++ ["Syncing complete."])⟩

/-- C6 (amended): if either calendar fails to resolve, the run aborts
before fetching or processing any event — zero events fetched, zero
outcomes, the target never touched — but the process exit status is 0,
not non-zero, because bare `exit()` exits with status 0. -/
theorem fatal_abort_no_processing (env : Env)
    (h : get_calendar env.srcFolders SOURCE_ACCOUNT CALENDAR_NAME = none ∨
      get_calendar env.tgtFolders TARGET_ACCOUNT CALENDAR_NAME = none) :
    (mainRun env).fetched = [] ∧ (mainRun env).outcomes = [] ∧
      (mainRun env).finalTarget = none ∧ (mainRun env).exitCode = 0 := by
  unfold mainRun
  rcases h with h | h
  · rw [h]
    exact ⟨rfl, rfl, rfl, rfl⟩
  · cases hs : get_calendar env.srcFolders SOURCE_ACCOUNT CALENDAR_NAME with
    | none => exact ⟨rfl, rfl, rfl, rfl⟩
    | some sc => rw [h]; exact ⟨rfl, rfl, rfl, rfl⟩

/-- An environment whose target account cannot be resolved. -/
def envNoTarget : Env := ⟨[⟨SOURCE_ACCOUNT, [(CALENDAR_NAME, [])]⟩], [], 0⟩

/-- Witness for C6's amended theorem at a concrete input. -/
theorem fatal_abort_no_processing_witness :
    (mainRun envNoTarget).fetched = [] ∧ (mainRun envNoTarget).outcomes = [] ∧
      (mainRun envNoTarget).finalTarget = none ∧ (mainRun envNoTarget).exitCode = 0 :=
  fatal_abort_no_processing envNoTarget (Or.inr rfl)

/-- C6 counterexample: with the target calendar unresolvable the run does
abort before fetching anything, but the process exit status is 0 — bare
`exit()` raises `SystemExit(None)`, which terminates Python with status
0 — contradicting the claimed non-zero exit status. -/
theorem fatal_abort_exit_status_is_zero :
    get_calendar envNoTarget.tgtFolders TARGET_ACCOUNT CALENDAR_NAME = none ∧
      (mainRun envNoTarget).exitCode = 0 ∧ (mainRun envNoTarget).fetched = [] := by
  exact ⟨rfl, rfl, rfl⟩

/-- C7 (amended): after processing all fetched events the run records one
outcome per event and ends its output with the fixed completion message
`Syncing complete.`; no booked/skipped/errored counts are accumulated or
reported. -/
theorem run_reports_completion_not_counts (env : Env)
    (sc : List SrcEvent) (tc : List AppointmentItem)
    (hs : get_calendar env.srcFolders SOURCE_ACCOUNT CALENDAR_NAME = some sc)
    (ht : get_calendar env.tgtFolders TARGET_ACCOUNT CALENDAR_NAME = some tc) :
    (mainRun env).outcomes.length = (mainRun env).fetched.length ∧
      (mainRun env).log.getLast? = some "Syncing complete." := by
  unfold mainRun
  rw [hs, ht]
  constructor
  · exact syncRun_outcomes_length _ _
  · show (headerLine :: ((syncRun tc _).log ++ ["Syncing complete."])).getLast? = _
    rw [← List.cons_append]
    exact getLast_append_single _ _

/-- An environment in which the single source event gets booked. -/
def envBook : Env :=
  ⟨[⟨SOURCE_ACCOUNT, [(CALENDAR_NAME, [meetingEv])]⟩],
    [⟨TARGET_ACCOUNT, [(CALENDAR_NAME, [])]⟩], 0⟩

/-- Witness for C7's amended theorem at a concrete input. -/
theorem run_reports_completion_not_counts_witness :
    (mainRun envBook).outcomes.length = (mainRun envBook).fetched.length ∧
      (mainRun envBook).log.getLast? = some "Syncing complete." :=
  run_reports_completion_not_counts envBook [meetingEv] [] rfl rfl

/-- An environment in which the single source event gets skipped. -/
def envSkip : Env :=
  ⟨[⟨SOURCE_ACCOUNT, [(CALENDAR_NAME, [meetingEv])]⟩],
    [⟨TARGET_ACCOUNT, [(CALENDAR_NAME, [⟨"Existing", 600, 660, "", 0, ""⟩])]⟩], 0⟩

/-- C7 counterexample: two runs with different per-event outcome counts
(one booked versus one skipped) produce the identical final output line,
so the run's final output is not a summary carrying integer counts of
booked, skipped, and errored events. -/
theorem final_line_carries_no_counts :
    (mainRun envBook).outcomes = [Outcome.booked] ∧
      (mainRun envSkip).outcomes = [Outcome.skipped] ∧
      (mainRun envBook).log.getLast? = (mainRun envSkip).log.getLast? := by
  decide
